import Mathlib

/-!
# Access-time extraction (cmd/analyze/scanner_linux.go, cmd/analyze/scanner_darwin.go)

A shallow embedding of `getLastAccessTimeFromInfo` for both build targets, together with
the parts of the Go runtime and standard library that the function calls:

* the dynamic value returned by `fs.FileInfo.Sys()` and the comma-ok type assertion
  `info.Sys().(*syscall.Stat_t)`;
* `syscall.Timespec` and the two `syscall.Stat_t` layouts (64-bit targets, where both
  `Sec` and `Nsec` are `int64`, the only targets on which the source type-checks);
* package `time`: `Time`, `Unix`, `Time.Unix`, `Time.Nanosecond`, `Time.IsZero`,
  `Time.UTC`, `Time.Date`, `Time.Clock`.

Machine integers are mathematical integers with explicit wrap-around at every
arithmetic operation and conversion.  A Go run-time panic is an `Except.error`.
-/

namespace Mole

/-! ## Machine integers -/

/-- Two-complement reduction of an integer to the `int64` range. -/
def wrapInt64 (x : Int) : Int :=
  (x + 9223372036854775808) % 18446744073709551616 - 9223372036854775808

/-- Two-complement reduction of an integer to the `int32` range. -/
def wrapInt32 (x : Int) : Int :=
  (x + 2147483648) % 4294967296 - 2147483648

/-- Conversion of a signed integer to `uint64`. -/
def toUint64 (x : Int) : Nat :=
  (x % 18446744073709551616).toNat

/-- The value is representable as an `int64`. -/
def InInt64 (x : Int) : Prop :=
  -9223372036854775808 ≤ x ∧ x < 9223372036854775808

instance (x : Int) : Decidable (InInt64 x) := by
  unfold InInt64; infer_instance

/-- Run-time panics that the modelled code can raise. -/
inductive Panic where
  | nilPointerDereference
  deriving DecidableEq, Repr

/-! ## Package `time` -/

namespace time

/-- The `*Location` stored in a `Time`: the nil pointer, `&localLoc` or `&utcLoc`. -/
inductive LocationPtr where
  | nil
  | localLoc
  | utcLoc
  deriving DecidableEq, Repr

/-- The exported variable `time.Local`, which is `&localLoc`. -/
def Local : LocationPtr := LocationPtr.localLoc

/-- The struct `time.Time`: `wall uint64`, `ext int64`, `loc *Location`. -/
structure Time where
  wall : Nat := 0
  ext : Int := 0
  loc : LocationPtr := LocationPtr.nil
  deriving DecidableEq, Repr

def secondsPerMinute : Int := 60
def secondsPerHour : Int := 60 * secondsPerMinute
def secondsPerDay : Int := 24 * secondsPerHour

def hasMonotonic : Nat := 2 ^ 63
def nsecMask : Nat := 2 ^ 30 - 1
def nsecShift : Nat := 30

def absoluteZeroYear : Int := -292277022399
def internalYear : Int := 1

/-- The constant `(absoluteZeroYear - internalYear) * 365.2425 * secondsPerDay`; the
factor `365.2425 * 86400` is the exact integer `31556952`. -/
def absoluteToInternal : Int := (absoluteZeroYear - internalYear) * 31556952
def internalToAbsolute : Int := -absoluteToInternal

def unixToInternal : Int :=
  (1969 * 365 + 1969 / 4 - 1969 / 100 + 1969 / 400) * secondsPerDay
def internalToUnix : Int := -unixToInternal

def wallToInternal : Int :=
  (1884 * 365 + 1884 / 4 - 1884 / 100 + 1884 / 400) * secondsPerDay

/-- The composite literal `time.Time{}`. -/
def zeroTime : Time := {}

/-- The unexported `unixTime(sec int64, nsec int32) Time`:
`Time{uint64(nsec), sec + unixToInternal, Local}`. -/
def unixTime (sec : Int) (nsec : Int) : Time :=
  { wall := toUint64 nsec, ext := wrapInt64 (sec + unixToInternal), loc := Local }

/-- The function `time.Unix(sec int64, nsec int64) Time`.  Go integer division truncates
toward zero (`Int.tdiv`). -/
def Unix (sec : Int) (nsec : Int) : Time :=
  if nsec < 0 ∨ nsec ≥ 1000000000 then
    let n := Int.tdiv nsec 1000000000
    let sec1 := wrapInt64 (sec + n)
    let nsec1 := wrapInt64 (nsec - wrapInt64 (n * 1000000000))
    if nsec1 < 0 then
      unixTime (wrapInt64 (sec1 - 1)) (wrapInt32 (wrapInt64 (nsec1 + 1000000000)))
    else
      unixTime sec1 (wrapInt32 nsec1)
  else
    unixTime sec (wrapInt32 nsec)

/-- The method `nsec`: `int32(t.wall & nsecMask)`. -/
def Time.nsec (t : Time) : Int :=
  wrapInt32 ((t.wall &&& nsecMask : Nat) : Int)

/-- The method `sec`: seconds since Jan 1 year 1. -/
def Time.sec (t : Time) : Int :=
  if t.wall &&& hasMonotonic ≠ 0 then
    wrapInt64 (wallToInternal +
      wrapInt64 ((((t.wall <<< 1) % 18446744073709551616) >>> (nsecShift + 1) : Nat) : Int))
  else
    t.ext

/-- The method `unixSec`: `t.sec() + internalToUnix`. -/
def Time.unixSec (t : Time) : Int :=
  wrapInt64 (t.sec + internalToUnix)

/-- The method `Time.Unix`: seconds elapsed since January 1, 1970 UTC. -/
def Time.Unix (t : Time) : Int :=
  t.unixSec

/-- The method `Time.Nanosecond`: nanosecond offset within the second. -/
def Time.Nanosecond (t : Time) : Int :=
  t.nsec

/-- The method `Time.IsZero`: `t.sec() == 0 && t.nsec() == 0`. -/
def Time.IsZero (t : Time) : Bool :=
  t.sec == 0 && t.nsec == 0

/-- The method `Time.stripMono`. -/
def Time.stripMono (t : Time) : Time :=
  if t.wall &&& hasMonotonic ≠ 0 then
    { t with ext := t.sec, wall := t.wall &&& nsecMask }
  else
    t

/-- The method `Time.setLoc`: `&utcLoc` is stored as the nil pointer. -/
def Time.setLoc (t : Time) (loc : LocationPtr) : Time :=
  let loc1 := if loc = LocationPtr.utcLoc then LocationPtr.nil else loc
  { t.stripMono with loc := loc1 }

/-- The method `Time.UTC`: the same instant with the location set to UTC. -/
def Time.UTC (t : Time) : Time :=
  t.setLoc LocationPtr.utcLoc

/-- The method `Location.get`: the nil pointer stands for `&utcLoc`. -/
def LocationPtr.get (l : LocationPtr) : LocationPtr :=
  match l with
  | LocationPtr.nil => LocationPtr.utcLoc
  | l1 => l1

/-- The method `Time.abs`: seconds since the absolute zero year, as `uint64`.  The zone
offset in force at a Unix second in the local zone depends on the host configuration and
is the parameter `zoneOffset`; it is not consulted for UTC. -/
def Time.abs (zoneOffset : Int → Int) (t : Time) : Nat :=
  let l := if t.loc = LocationPtr.nil ∨ t.loc = LocationPtr.localLoc then t.loc.get else t.loc
  let sec := t.unixSec
  let sec1 := if l ≠ LocationPtr.utcLoc then wrapInt64 (sec + zoneOffset sec) else sec
  toUint64 (wrapInt64 (sec1 + (unixToInternal + internalToAbsolute)))

def daysPer400Years : Nat := 365 * 400 + 97
def daysPer100Years : Nat := 365 * 100 + 24
def daysPer4Years : Nat := 365 * 4 + 1

/-- The table `daysBefore`: days in a non-leap year before each month begins. -/
def daysBefore : List Int :=
  [0, 31, 31 + 28, 31 + 28 + 31, 31 + 28 + 31 + 30, 31 + 28 + 31 + 30 + 31,
   31 + 28 + 31 + 30 + 31 + 30, 31 + 28 + 31 + 30 + 31 + 30 + 31,
   31 + 28 + 31 + 30 + 31 + 30 + 31 + 31, 31 + 28 + 31 + 30 + 31 + 30 + 31 + 31 + 30,
   31 + 28 + 31 + 30 + 31 + 30 + 31 + 31 + 30 + 31,
   31 + 28 + 31 + 30 + 31 + 30 + 31 + 31 + 30 + 31 + 30,
   31 + 28 + 31 + 30 + 31 + 30 + 31 + 31 + 30 + 31 + 30 + 31]

/-- The function `isLeap`; the Go remainder operator truncates (`Int.tmod`). -/
def isLeap (year : Int) : Bool :=
  Int.tmod year 4 == 0 && (Int.tmod year 100 != 0 || Int.tmod year 400 == 0)

/-- The function `absDate(abs uint64, full bool)` with `full = true`, returning
`(year, month, day, yday)`; January is month 1. -/
def absDate (abs : Nat) : Int × Int × Int × Int :=
  let d0 := abs / secondsPerDay.toNat
  -- Account for 400 year cycles.
  let n400 := d0 / daysPer400Years
  let y400 := 400 * n400
  let d1 := d0 - daysPer400Years * n400
  -- Cut off 100-year cycles.
  let n100a := d1 / daysPer100Years
  let n100 := n100a - (n100a >>> 2)
  let y100 := y400 + 100 * n100
  let d2 := d1 - daysPer100Years * n100
  -- Cut off 4-year cycles.
  let n4 := d2 / daysPer4Years
  let y4 := y100 + 4 * n4
  let d3 := d2 - daysPer4Years * n4
  -- Cut off years within a 4-year cycle.
  let n1a := d3 / 365
  let n1 := n1a - (n1a >>> 2)
  let y := y4 + n1
  let d := d3 - 365 * n1
  let year := wrapInt64 (wrapInt64 (y : Int) + absoluteZeroYear)
  let yday : Int := (d : Int)
  if isLeap year ∧ yday = 31 + 29 - 1 then
    -- Leap day.
    (year, 2, 29, yday)
  else
    -- After leap day; pretend it was not there.
    let day := if isLeap year ∧ yday > 31 + 29 - 1 then yday - 1 else yday
    -- Estimate month on assumption that every month has 31 days.
    let month := Int.tdiv day 31
    let end_ := daysBefore.getD (month + 1).toNat 0
    if day ≥ end_ then
      (year, month + 1 + 1, day - end_ + 1, yday)
    else
      (year, month + 1, day - daysBefore.getD month.toNat 0 + 1, yday)

/-- The function `absClock(abs uint64)`, returning `(hour, min, sec)`. -/
def absClock (abs : Nat) : Int × Int × Int :=
  let sec : Int := ((abs % secondsPerDay.toNat : Nat) : Int)
  let hour := Int.tdiv sec secondsPerHour
  let sec1 := sec - hour * secondsPerHour
  let min := Int.tdiv sec1 secondsPerMinute
  let sec2 := sec1 - min * secondsPerMinute
  (hour, min, sec2)

/-- The method `Time.Date`: `(year, month, day)` in the location of `t`. -/
def Time.Date (zoneOffset : Int → Int) (t : Time) : Int × Int × Int :=
  let r := absDate (t.abs zoneOffset)
  (r.1, r.2.1, r.2.2.1)

/-- The method `Time.Clock`: `(hour, min, sec)` within the day of `t`. -/
def Time.Clock (zoneOffset : Int → Int) (t : Time) : Int × Int × Int :=
  absClock (t.abs zoneOffset)

end time

/-! ## Package `syscall` -/

namespace syscall

/-- The struct `syscall.Timespec` on 64-bit targets: `Sec int64`, `Nsec int64`. -/
structure Timespec where
  Sec : Int
  Nsec : Int
  deriving DecidableEq, Repr

end syscall

/-! ## The dynamic value behind `fs.FileInfo` -/

/-- The interface value returned by `Sys() any`, seen from a build whose native stat type
is `σ`: the nil interface, a value of dynamic type `*syscall.Stat_t` (a pointer, possibly
nil), or a value of some other dynamic type, identified by its type name. -/
inductive SysValue (σ : Type) where
  | nilInterface
  | statPtr (p : Option σ)
  | other (typeName : String)

/-- The comma-ok type assertion `x.(*syscall.Stat_t)`: the pointer and the `ok` flag; on
failure the pointer is the zero value of the pointer type. -/
def SysValue.assertStatPtr {σ : Type} (x : SysValue σ) : Option σ × Bool :=
  match x with
  | SysValue.statPtr p => (p, true)
  | SysValue.nilInterface => (none, false)
  | SysValue.other _ => (none, false)

/-- Dereferencing a pointer for a field read: a nil pointer panics. -/
def deref {σ : Type} (p : Option σ) : Except Panic σ :=
  match p with
  | some s => Except.ok s
  | none => Except.error Panic.nilPointerDereference

/-- The values an `fs.FileInfo` reports through its methods `Name`, `Size`, `Mode`,
`ModTime`, `IsDir` and `Sys`. -/
structure FileInfo (σ : Type) where
  Name : String
  Size : Int
  Mode : Nat
  ModTime : time.Time
  IsDir : Bool
  Sys : SysValue σ

/-! ## scanner_linux.go -/

namespace Linux

/-- The struct `syscall.Stat_t` of linux/amd64 (padding fields left out). -/
structure Stat_t where
  Dev : Nat
  Ino : Nat
  Nlink : Nat
  Mode : Nat
  Uid : Nat
  Gid : Nat
  Rdev : Nat
  Size : Int
  Blksize : Int
  Blocks : Int
  Atim : syscall.Timespec
  Mtim : syscall.Timespec
  Ctim : syscall.Timespec

/-- The function `getLastAccessTimeFromInfo` of scanner_linux.go. -/
def getLastAccessTimeFromInfo (info : FileInfo Stat_t) : Except Panic time.Time :=
  let (stat, ok) := info.Sys.assertStatPtr
  if !ok then
    Except.ok time.zeroTime
  else do
    -- Linux uses Atim
    let s ← deref stat
    pure (time.Unix s.Atim.Sec s.Atim.Nsec)

end Linux

/-! ## scanner_darwin.go -/

namespace Darwin

/-- The struct `syscall.Stat_t` of darwin/amd64 (padding fields left out). -/
structure Stat_t where
  Dev : Int
  Mode : Nat
  Nlink : Nat
  Ino : Nat
  Uid : Nat
  Gid : Nat
  Rdev : Int
  Atimespec : syscall.Timespec
  Mtimespec : syscall.Timespec
  Ctimespec : syscall.Timespec
  Birthtimespec : syscall.Timespec
  Size : Int
  Blocks : Int
  Blksize : Int
  Flags : Nat
  Gen : Nat

/-- The function `getLastAccessTimeFromInfo` of scanner_darwin.go. -/
def getLastAccessTimeFromInfo (info : FileInfo Stat_t) : Except Panic time.Time :=
  let (stat, ok) := info.Sys.assertStatPtr
  if !ok then
    Except.ok time.zeroTime
  else do
    -- macOS uses Atimespec
    let s ← deref stat
    pure (time.Unix s.Atimespec.Sec s.Atimespec.Nsec)

end Darwin

/-! ## Sample inputs -/

/-- A file description with fixed ordinary attributes around a given `Sys()` value. -/
def sampleInfo {σ : Type} (sys : SysValue σ) : FileInfo σ :=
  { Name := "report.txt", Size := 4096, Mode := 420, ModTime := time.Unix 1600000000 0,
    IsDir := false, Sys := sys }

/-- A file description differing from `sampleInfo` in every ordinary attribute. -/
def otherInfo {σ : Type} (sys : SysValue σ) : FileInfo σ :=
  { Name := "cache", Size := 0, Mode := 2147484141, ModTime := time.Unix 1650000000 7,
    IsDir := true, Sys := sys }

/-- A linux stat block with the given access time. -/
def Linux.sampleStat (atim : syscall.Timespec) : Linux.Stat_t :=
  { Dev := 2049, Ino := 131, Nlink := 1, Mode := 33188, Uid := 1000, Gid := 1000, Rdev := 0,
    Size := 4096, Blksize := 4096, Blocks := 8, Atim := atim,
    Mtim := { Sec := 1600000000, Nsec := 0 }, Ctim := { Sec := 1600000000, Nsec := 0 } }

/-- A linux stat block differing from `Linux.sampleStat` in every field but the access
time. -/
def Linux.otherStat (atim : syscall.Timespec) : Linux.Stat_t :=
  { Dev := 66306, Ino := 9000001, Nlink := 2, Mode := 16877, Uid := 0, Gid := 0, Rdev := 5,
    Size := 0, Blksize := 512, Blocks := 0, Atim := atim,
    Mtim := { Sec := 1650000000, Nsec := 7 }, Ctim := { Sec := 1650000001, Nsec := 9 } }

/-- A darwin stat block with the given access time. -/
def Darwin.sampleStat (atimespec : syscall.Timespec) : Darwin.Stat_t :=
  { Dev := 16777220, Mode := 33188, Nlink := 1, Ino := 131, Uid := 501, Gid := 20, Rdev := 0,
    Atimespec := atimespec, Mtimespec := { Sec := 1600000000, Nsec := 0 },
    Ctimespec := { Sec := 1600000000, Nsec := 0 },
    Birthtimespec := { Sec := 1500000000, Nsec := 0 },
    Size := 4096, Blocks := 8, Blksize := 4096, Flags := 0, Gen := 0 }

/-- A darwin stat block differing from `Darwin.sampleStat` in every field but the access
time. -/
def Darwin.otherStat (atimespec : syscall.Timespec) : Darwin.Stat_t :=
  { Dev := 16777231, Mode := 16877, Nlink := 3, Ino := 77, Uid := 0, Gid := 0, Rdev := 1,
    Atimespec := atimespec, Mtimespec := { Sec := 1650000000, Nsec := 7 },
    Ctimespec := { Sec := 1650000001, Nsec := 9 },
    Birthtimespec := { Sec := 1400000000, Nsec := 3 },
    Size := 0, Blocks := 0, Blksize := 512, Flags := 32, Gen := 1 }

/-- A linux file description wrapping a stat block with the given access time. -/
def Linux.sampleFile (atim : syscall.Timespec) : FileInfo Linux.Stat_t :=
  sampleInfo (SysValue.statPtr (some (Linux.sampleStat atim)))

/-- A darwin file description wrapping a stat block with the given access time. -/
def Darwin.sampleFile (atimespec : syscall.Timespec) : FileInfo Darwin.Stat_t :=
  sampleInfo (SysValue.statPtr (some (Darwin.sampleStat atimespec)))

/-- What the access-time extraction is said to depend on, linux build: whether the blob has
dynamic type `*syscall.Stat_t` and, behind the pointer, the `Atim` pair. -/
def Linux.accessView (info : FileInfo Linux.Stat_t) : Option (Option syscall.Timespec) :=
  match info.Sys with
  | SysValue.statPtr p => some (p.map (fun st => st.Atim))
  | SysValue.nilInterface => none
  | SysValue.other _ => none

/-- What the access-time extraction is said to depend on, darwin build: whether the blob
has dynamic type `*syscall.Stat_t` and, behind the pointer, the `Atimespec` pair. -/
def Darwin.accessView (info : FileInfo Darwin.Stat_t) : Option (Option syscall.Timespec) :=
  match info.Sys with
  | SysValue.statPtr p => some (p.map (fun st => st.Atimespec))
  | SysValue.nilInterface => none
  | SysValue.other _ => none

/-! ## Arithmetic facts about the embedding -/

theorem wrapInt64_eq_self {x : Int} (h : InInt64 x) : wrapInt64 x = x := by
  unfold InInt64 at h
  unfold wrapInt64
  omega

theorem wrapInt64_add_left (a b : Int) : wrapInt64 (wrapInt64 a + b) = wrapInt64 (a + b) := by
  unfold wrapInt64
  omega

theorem unixToInternal_eq : time.unixToInternal = 62135596800 := by
  decide

theorem internalToUnix_eq : time.internalToUnix = -62135596800 := by
  decide

/-- Truncated division by one billion, expressed through floor division. -/
theorem tdiv_billion (n : Int) :
    (0 ≤ n → Int.tdiv n 1000000000 = n / 1000000000) ∧
    (n < 0 → Int.tdiv n 1000000000 = -((-n) / 1000000000)) := by
  constructor
  · intro h
    exact Int.tdiv_eq_ediv h (by decide)
  · intro h
    have h1 : Int.tdiv (-n) 1000000000 = (-n) / 1000000000 :=
      Int.tdiv_eq_ediv (by omega) (by decide)
    have h2 : Int.tdiv (-n) 1000000000 = -(Int.tdiv n 1000000000) := Int.neg_tdiv n 1000000000
    omega

/-- Normal form of `time.Unix` on `int64` arguments: the nanosecond field is the floor
remainder, the second count is shifted by the floor quotient and by `unixToInternal`. -/
theorem Unix_normal_form (sec nsec : Int) (hn : InInt64 nsec) :
    time.Unix sec nsec =
      { wall := (nsec % 1000000000).toNat,
        ext := wrapInt64 (sec + nsec / 1000000000 + 62135596800),
        loc := time.Local } := by
  obtain ⟨hpos, hneg⟩ := tdiv_billion nsec
  unfold InInt64 at hn
  unfold time.Unix time.unixTime
  rw [unixToInternal_eq]
  by_cases h0 : nsec < 0
  · rw [hneg h0]
    simp only [h0, true_or, if_true]
    unfold wrapInt64 wrapInt32 toUint64
    split <;> (congr 1 <;> omega)
  · have h0p : 0 ≤ nsec := by omega
    rw [hpos h0p]
    by_cases h1 : nsec ≥ 1000000000
    · simp only [h1, or_true, if_true]
      unfold wrapInt64 wrapInt32 toUint64
      split <;> (congr 1 <;> omega)
    · simp only [h0, h1, or_self, if_false]
      unfold wrapInt64 wrapInt32 toUint64
      congr 1 <;> omega

theorem land_hasMonotonic_of_lt (w : Nat) (h : w < 1000000000) :
    w &&& time.hasMonotonic = 0 := by
  apply Nat.eq_of_testBit_eq
  intro i
  rw [Nat.testBit_and, Nat.zero_testBit]
  by_cases hi : i = 63
  · subst hi
    have : w < 2 ^ 63 := by omega
    rw [Nat.testBit_lt_two_pow this]
    rfl
  · have : (63 : Nat) ≠ i := fun e => hi e.symm
    unfold time.hasMonotonic
    rw [Nat.testBit_two_pow_of_ne this]
    simp

theorem land_nsecMask_of_lt (w : Nat) (h : w < 1000000000) :
    w &&& time.nsecMask = w := by
  unfold time.nsecMask
  rw [Nat.and_pow_two_sub_one_eq_mod]
  apply Nat.mod_eq_of_lt
  omega

theorem sec_of_small_wall (w : Nat) (e : Int) (l : time.LocationPtr) (h : w < 1000000000) :
    time.Time.sec { wall := w, ext := e, loc := l } = e := by
  unfold time.Time.sec
  simp only [land_hasMonotonic_of_lt w h, ne_eq, not_true_eq_false, if_false]

theorem nsec_of_small_wall (w : Nat) (e : Int) (l : time.LocationPtr) (h : w < 1000000000) :
    time.Time.nsec { wall := w, ext := e, loc := l } = (w : Int) := by
  unfold time.Time.nsec
  simp only [land_nsecMask_of_lt w h]
  unfold wrapInt32
  omega

/-- Unix seconds of `time.Unix sec nsec`. -/
theorem Unix_Unix (sec nsec : Int) (hn : InInt64 nsec) :
    (time.Unix sec nsec).Unix = wrapInt64 (sec + nsec / 1000000000) := by
  rw [Unix_normal_form sec nsec hn]
  unfold time.Time.Unix time.Time.unixSec
  rw [sec_of_small_wall _ _ _ (by omega), internalToUnix_eq]
  unfold wrapInt64
  omega

/-- Nanosecond field of `time.Unix sec nsec`. -/
theorem Unix_Nanosecond (sec nsec : Int) (hn : InInt64 nsec) :
    (time.Unix sec nsec).Nanosecond = nsec % 1000000000 := by
  rw [Unix_normal_form sec nsec hn]
  unfold time.Time.Nanosecond
  rw [nsec_of_small_wall _ _ _ (by omega)]
  omega

/-! ## The two extraction functions on the three kinds of blob -/

theorem linux_get_of_stat (info : FileInfo Linux.Stat_t) (st : Linux.Stat_t)
    (h : info.Sys = SysValue.statPtr (some st)) :
    Linux.getLastAccessTimeFromInfo info = Except.ok (time.Unix st.Atim.Sec st.Atim.Nsec) := by
  unfold Linux.getLastAccessTimeFromInfo
  rw [h]
  rfl

theorem darwin_get_of_stat (info : FileInfo Darwin.Stat_t) (st : Darwin.Stat_t)
    (h : info.Sys = SysValue.statPtr (some st)) :
    Darwin.getLastAccessTimeFromInfo info =
      Except.ok (time.Unix st.Atimespec.Sec st.Atimespec.Nsec) := by
  unfold Darwin.getLastAccessTimeFromInfo
  rw [h]
  rfl

theorem linux_get_of_nil_ptr (info : FileInfo Linux.Stat_t)
    (h : info.Sys = SysValue.statPtr none) :
    Linux.getLastAccessTimeFromInfo info = Except.error Panic.nilPointerDereference := by
  unfold Linux.getLastAccessTimeFromInfo
  rw [h]
  rfl

theorem darwin_get_of_nil_ptr (info : FileInfo Darwin.Stat_t)
    (h : info.Sys = SysValue.statPtr none) :
    Darwin.getLastAccessTimeFromInfo info = Except.error Panic.nilPointerDereference := by
  unfold Darwin.getLastAccessTimeFromInfo
  rw [h]
  rfl

theorem linux_get_of_not_stat (info : FileInfo Linux.Stat_t)
    (h : ∀ p, info.Sys ≠ SysValue.statPtr p) :
    Linux.getLastAccessTimeFromInfo info = Except.ok time.zeroTime := by
  unfold Linux.getLastAccessTimeFromInfo
  cases hs : info.Sys with
  | statPtr p => exact absurd hs (h p)
  | nilInterface => rfl
  | other n => rfl

theorem darwin_get_of_not_stat (info : FileInfo Darwin.Stat_t)
    (h : ∀ p, info.Sys ≠ SysValue.statPtr p) :
    Darwin.getLastAccessTimeFromInfo info = Except.ok time.zeroTime := by
  unfold Darwin.getLastAccessTimeFromInfo
  cases hs : info.Sys with
  | statPtr p => exact absurd hs (h p)
  | nilInterface => rfl
  | other n => rfl

/-- The time built from `(1_700_000_000, 500_000_000)`, field by field. -/
theorem scenario_Unix :
    time.Unix 1700000000 500000000 =
      { wall := 500000000, ext := 63835596800, loc := time.Local } := by
  decide

/-- Absolute second count of the scenario instant in UTC; the local zone offset is not
consulted. -/
theorem scenario_abs (zoneOffset : Int → Int) :
    (time.Unix 1700000000 500000000).UTC.abs zoneOffset = 9223372030415321600 := by
  rw [scenario_Unix]
  have hu : time.Time.UTC { wall := 500000000, ext := 63835596800, loc := time.Local } =
      { wall := 500000000, ext := 63835596800, loc := time.LocationPtr.nil } := by
    decide
  rw [hu]
  unfold time.Time.abs
  simp only [true_or, if_true, time.LocationPtr.get, ne_eq, not_true_eq_false, if_false]
  decide

/-! ## Round trip, fallback and the concrete scenario -/

/-- C1 (round-trip fidelity): when the blob is a non-nil `*syscall.Stat_t` whose access
time is `(S, N)` with `S` an `int64` (non-negative or not) and `0 ≤ N < 1_000_000_000`,
both builds return exactly `time.Unix(S, N)`, whose Unix seconds are `S` and whose
nanosecond component is `N`. -/
theorem getLastAccessTimeFromInfo_round_trip
    (iL : FileInfo Linux.Stat_t) (stL : Linux.Stat_t)
    (iD : FileInfo Darwin.Stat_t) (stD : Darwin.Stat_t) (S N : Int)
    (hL : iL.Sys = SysValue.statPtr (some stL)) (hLa : stL.Atim = { Sec := S, Nsec := N })
    (hD : iD.Sys = SysValue.statPtr (some stD))
    (hDa : stD.Atimespec = { Sec := S, Nsec := N })
    (hS : InInt64 S) (hN0 : 0 ≤ N) (hN : N < 1000000000) :
    Linux.getLastAccessTimeFromInfo iL = Except.ok (time.Unix S N) ∧
    Darwin.getLastAccessTimeFromInfo iD = Except.ok (time.Unix S N) ∧
    (time.Unix S N).Unix = S ∧ (time.Unix S N).Nanosecond = N := by
  have hNi : InInt64 N := by unfold InInt64; omega
  refine ⟨?_, ?_, ?_, ?_⟩
  · rw [linux_get_of_stat iL stL hL, hLa]
  · rw [darwin_get_of_stat iD stD hD, hDa]
  · rw [Unix_Unix S N hNi]
    have : N / 1000000000 = 0 := by omega
    rw [this, Int.add_zero]
    exact wrapInt64_eq_self hS
  · rw [Unix_Nanosecond S N hNi]
    omega

theorem getLastAccessTimeFromInfo_round_trip_witness :
    Linux.getLastAccessTimeFromInfo (Linux.sampleFile { Sec := 1234567890, Nsec := 987654321 })
      = Except.ok (time.Unix 1234567890 987654321) ∧
    Darwin.getLastAccessTimeFromInfo (Darwin.sampleFile { Sec := 1234567890, Nsec := 987654321 })
      = Except.ok (time.Unix 1234567890 987654321) ∧
    (time.Unix 1234567890 987654321).Unix = 1234567890 ∧
    (time.Unix 1234567890 987654321).Nanosecond = 987654321 :=
  getLastAccessTimeFromInfo_round_trip
    (Linux.sampleFile { Sec := 1234567890, Nsec := 987654321 })
    (Linux.sampleStat { Sec := 1234567890, Nsec := 987654321 })
    (Darwin.sampleFile { Sec := 1234567890, Nsec := 987654321 })
    (Darwin.sampleStat { Sec := 1234567890, Nsec := 987654321 })
    1234567890 987654321 rfl rfl rfl rfl (by decide) (by decide) (by decide)

/-- C2 (fallback correctness): when the blob is not of dynamic type `*syscall.Stat_t`
(the nil interface value, or a value of any other type), both builds return the zero
value `time.Time{}` and do not panic. -/
theorem getLastAccessTimeFromInfo_fallback
    (iL : FileInfo Linux.Stat_t) (iD : FileInfo Darwin.Stat_t)
    (hL : ∀ p, iL.Sys ≠ SysValue.statPtr p) (hD : ∀ p, iD.Sys ≠ SysValue.statPtr p) :
    Linux.getLastAccessTimeFromInfo iL = Except.ok time.zeroTime ∧
    Darwin.getLastAccessTimeFromInfo iD = Except.ok time.zeroTime :=
  ⟨linux_get_of_not_stat iL hL, darwin_get_of_not_stat iD hD⟩

theorem getLastAccessTimeFromInfo_fallback_witness :
    (Linux.getLastAccessTimeFromInfo (sampleInfo SysValue.nilInterface)
        = Except.ok time.zeroTime ∧
      Darwin.getLastAccessTimeFromInfo (sampleInfo (SysValue.other "*syscall.Win32FileAttributeData"))
        = Except.ok time.zeroTime) ∧
    (Linux.getLastAccessTimeFromInfo (sampleInfo (SysValue.other "*tar.Header"))
        = Except.ok time.zeroTime ∧
      Darwin.getLastAccessTimeFromInfo (sampleInfo SysValue.nilInterface)
        = Except.ok time.zeroTime) :=
  ⟨getLastAccessTimeFromInfo_fallback (sampleInfo SysValue.nilInterface)
      (sampleInfo (SysValue.other "*syscall.Win32FileAttributeData"))
      (by intro p h; cases h) (by intro p h; cases h),
   getLastAccessTimeFromInfo_fallback (sampleInfo (SysValue.other "*tar.Header"))
      (sampleInfo SysValue.nilInterface)
      (by intro p h; cases h) (by intro p h; cases h)⟩

/-- C3 (concrete scenario): for a blob that is a non-nil `*syscall.Stat_t` with access time
seconds `1_700_000_000` and nanoseconds `500_000_000`, both builds return a time whose
UTC civil decoding is 2023-11-14 22:13:20 with 500_000_000 ns, whatever the local zone. -/
theorem getLastAccessTimeFromInfo_scenario
    (iL : FileInfo Linux.Stat_t) (stL : Linux.Stat_t)
    (iD : FileInfo Darwin.Stat_t) (stD : Darwin.Stat_t)
    (hL : iL.Sys = SysValue.statPtr (some stL))
    (hLa : stL.Atim = { Sec := 1700000000, Nsec := 500000000 })
    (hD : iD.Sys = SysValue.statPtr (some stD))
    (hDa : stD.Atimespec = { Sec := 1700000000, Nsec := 500000000 })
    (zoneOffset : Int → Int) :
    ∃ t : time.Time,
      Linux.getLastAccessTimeFromInfo iL = Except.ok t ∧
      Darwin.getLastAccessTimeFromInfo iD = Except.ok t ∧
      t.UTC.Date zoneOffset = (2023, 11, 14) ∧
      t.UTC.Clock zoneOffset = (22, 13, 20) ∧
      t.UTC.Nanosecond = 500000000 := by
  refine ⟨time.Unix 1700000000 500000000, ?_, ?_, ?_, ?_, ?_⟩
  · rw [linux_get_of_stat iL stL hL, hLa]
  · rw [darwin_get_of_stat iD stD hD, hDa]
  · unfold time.Time.Date
    rw [scenario_abs zoneOffset]
    decide
  · unfold time.Time.Clock
    rw [scenario_abs zoneOffset]
    decide
  · decide

theorem getLastAccessTimeFromInfo_scenario_witness :
    ∃ t : time.Time,
      Linux.getLastAccessTimeFromInfo
        (Linux.sampleFile { Sec := 1700000000, Nsec := 500000000 }) = Except.ok t ∧
      Darwin.getLastAccessTimeFromInfo
        (Darwin.sampleFile { Sec := 1700000000, Nsec := 500000000 }) = Except.ok t ∧
      t.UTC.Date (fun _ => 3600) = (2023, 11, 14) ∧
      t.UTC.Clock (fun _ => 3600) = (22, 13, 20) ∧
      t.UTC.Nanosecond = 500000000 :=
  getLastAccessTimeFromInfo_scenario
    (Linux.sampleFile { Sec := 1700000000, Nsec := 500000000 })
    (Linux.sampleStat { Sec := 1700000000, Nsec := 500000000 })
    (Darwin.sampleFile { Sec := 1700000000, Nsec := 500000000 })
    (Darwin.sampleStat { Sec := 1700000000, Nsec := 500000000 })
    rfl rfl rfl rfl (fun _ => 3600)

/-! ## Nil pointers and values outside the nanosecond range -/

/-- C4 (behaviour at the failing input): when `Sys()` returns a nil pointer of type
`*syscall.Stat_t`, the type assertion succeeds and the field read panics with a nil
pointer dereference in both builds; the nil interface value gives `time.Time{}`. -/
theorem getLastAccessTimeFromInfo_typed_nil_panics :
    Linux.getLastAccessTimeFromInfo (sampleInfo (SysValue.statPtr none))
      = Except.error Panic.nilPointerDereference ∧
    Darwin.getLastAccessTimeFromInfo (sampleInfo (SysValue.statPtr none))
      = Except.error Panic.nilPointerDereference ∧
    Linux.getLastAccessTimeFromInfo (sampleInfo SysValue.nilInterface)
      = Except.ok time.zeroTime ∧
    Darwin.getLastAccessTimeFromInfo (sampleInfo SysValue.nilInterface)
      = Except.ok time.zeroTime :=
  ⟨rfl, rfl, rfl, rfl⟩

/-- C5 (counterexample): with access time `(0, 1_000_000_000)` both builds return
`time.Unix(0, 1_000_000_000)`, whose Unix seconds are `1` (not the stored `0`) and whose
nanosecond component is `0` (not the stored `1_000_000_000`). -/
theorem getLastAccessTimeFromInfo_fields_not_exact :
    Linux.getLastAccessTimeFromInfo (Linux.sampleFile { Sec := 0, Nsec := 1000000000 })
      = Except.ok (time.Unix 0 1000000000) ∧
    Darwin.getLastAccessTimeFromInfo (Darwin.sampleFile { Sec := 0, Nsec := 1000000000 })
      = Except.ok (time.Unix 0 1000000000) ∧
    (time.Unix 0 1000000000).Unix = 1 ∧
    (time.Unix 0 1000000000).Nanosecond = 0 ∧
    (time.Unix 0 1000000000).Unix ≠ 0 ∧
    (time.Unix 0 1000000000).Nanosecond ≠ 1000000000 := by
  refine ⟨rfl, rfl, ?_, ?_, ?_, ?_⟩ <;> decide

/-- C5 (amended): when the blob is a non-nil `*syscall.Stat_t` whose access-time `Nsec`
lies in `[0, 1_000_000_000)`, with any `int64` value of `Sec`, the Unix seconds and the
nanosecond component of the returned time equal the stored `Sec` and `Nsec`, in each
build. -/
theorem getLastAccessTimeFromInfo_fields_exact_in_range
    (iL : FileInfo Linux.Stat_t) (stL : Linux.Stat_t)
    (iD : FileInfo Darwin.Stat_t) (stD : Darwin.Stat_t)
    (hL : iL.Sys = SysValue.statPtr (some stL)) (hD : iD.Sys = SysValue.statPtr (some stD))
    (hLs : InInt64 stL.Atim.Sec) (hLn : 0 ≤ stL.Atim.Nsec ∧ stL.Atim.Nsec < 1000000000)
    (hDs : InInt64 stD.Atimespec.Sec)
    (hDn : 0 ≤ stD.Atimespec.Nsec ∧ stD.Atimespec.Nsec < 1000000000) :
    (∃ t : time.Time, Linux.getLastAccessTimeFromInfo iL = Except.ok t ∧
      t.Unix = stL.Atim.Sec ∧ t.Nanosecond = stL.Atim.Nsec) ∧
    (∃ t : time.Time, Darwin.getLastAccessTimeFromInfo iD = Except.ok t ∧
      t.Unix = stD.Atimespec.Sec ∧ t.Nanosecond = stD.Atimespec.Nsec) := by
  have hLi : InInt64 stL.Atim.Nsec := by unfold InInt64; omega
  have hDi : InInt64 stD.Atimespec.Nsec := by unfold InInt64; omega
  have hLq : stL.Atim.Nsec / 1000000000 = 0 := by omega
  have hDq : stD.Atimespec.Nsec / 1000000000 = 0 := by omega
  constructor
  · refine ⟨_, linux_get_of_stat iL stL hL, ?_, ?_⟩
    · rw [Unix_Unix _ _ hLi, hLq, Int.add_zero]
      exact wrapInt64_eq_self hLs
    · rw [Unix_Nanosecond _ _ hLi]
      omega
  · refine ⟨_, darwin_get_of_stat iD stD hD, ?_, ?_⟩
    · rw [Unix_Unix _ _ hDi, hDq, Int.add_zero]
      exact wrapInt64_eq_self hDs
    · rw [Unix_Nanosecond _ _ hDi]
      omega

theorem getLastAccessTimeFromInfo_fields_exact_in_range_witness :
    (∃ t : time.Time,
      Linux.getLastAccessTimeFromInfo (Linux.sampleFile { Sec := -86400, Nsec := 999999999 })
        = Except.ok t ∧
      t.Unix = -86400 ∧ t.Nanosecond = 999999999) ∧
    (∃ t : time.Time,
      Darwin.getLastAccessTimeFromInfo (Darwin.sampleFile { Sec := 1700000000, Nsec := 0 })
        = Except.ok t ∧
      t.Unix = 1700000000 ∧ t.Nanosecond = 0) :=
  getLastAccessTimeFromInfo_fields_exact_in_range
    (Linux.sampleFile { Sec := -86400, Nsec := 999999999 })
    (Linux.sampleStat { Sec := -86400, Nsec := 999999999 })
    (Darwin.sampleFile { Sec := 1700000000, Nsec := 0 })
    (Darwin.sampleStat { Sec := 1700000000, Nsec := 0 })
    rfl rfl (by decide) (by decide) (by decide) (by decide)

/-- C10 (nanosecond normalisation): when the blob is a non-nil `*syscall.Stat_t` whose
access time is `(S, N)` with `N` any `int64`, in particular one outside
`[0, 1_000_000_000)`, and `S + floor(N / 1e9)` representable as `int64`, both builds
return a time whose Unix seconds are `S + floor(N / 1e9)` and whose nanosecond component
is the floor remainder of `N` by `1e9`, lying in `[0, 1e9)`; it is the instant
`S * 1e9 + N` ns after the epoch. -/
theorem getLastAccessTimeFromInfo_normalises_nanoseconds
    (iL : FileInfo Linux.Stat_t) (stL : Linux.Stat_t)
    (iD : FileInfo Darwin.Stat_t) (stD : Darwin.Stat_t) (S N : Int)
    (hL : iL.Sys = SysValue.statPtr (some stL)) (hLa : stL.Atim = { Sec := S, Nsec := N })
    (hD : iD.Sys = SysValue.statPtr (some stD))
    (hDa : stD.Atimespec = { Sec := S, Nsec := N })
    (hN : InInt64 N) (hSum : InInt64 (S + Int.fdiv N 1000000000)) :
    ∃ t : time.Time,
      Linux.getLastAccessTimeFromInfo iL = Except.ok t ∧
      Darwin.getLastAccessTimeFromInfo iD = Except.ok t ∧
      t.Unix = S + Int.fdiv N 1000000000 ∧
      t.Nanosecond = Int.fmod N 1000000000 ∧
      0 ≤ t.Nanosecond ∧ t.Nanosecond < 1000000000 ∧
      t.Unix * 1000000000 + t.Nanosecond = S * 1000000000 + N := by
  have hq : Int.fdiv N 1000000000 = N / 1000000000 := Int.fdiv_eq_ediv N (by decide)
  have hr : Int.fmod N 1000000000 = N % 1000000000 := Int.fmod_eq_emod N (by decide)
  rw [hq] at hSum
  have hu : (time.Unix S N).Unix = S + N / 1000000000 := by
    rw [Unix_Unix S N hN]
    exact wrapInt64_eq_self hSum
  have hn : (time.Unix S N).Nanosecond = N % 1000000000 := Unix_Nanosecond S N hN
  refine ⟨time.Unix S N, ?_, ?_, ?_, ?_, ?_, ?_, ?_⟩
  · rw [linux_get_of_stat iL stL hL, hLa]
  · rw [darwin_get_of_stat iD stD hD, hDa]
  · rw [hu, hq]
  · rw [hn, hr]
  · rw [hn]; omega
  · rw [hn]; omega
  · rw [hu, hn]; omega

theorem getLastAccessTimeFromInfo_normalises_nanoseconds_witness :
    ∃ t : time.Time,
      Linux.getLastAccessTimeFromInfo (Linux.sampleFile { Sec := 100, Nsec := -1 })
        = Except.ok t ∧
      Darwin.getLastAccessTimeFromInfo (Darwin.sampleFile { Sec := 100, Nsec := -1 })
        = Except.ok t ∧
      t.Unix = 100 + Int.fdiv (-1) 1000000000 ∧
      t.Nanosecond = Int.fmod (-1) 1000000000 ∧
      0 ≤ t.Nanosecond ∧ t.Nanosecond < 1000000000 ∧
      t.Unix * 1000000000 + t.Nanosecond = 100 * 1000000000 + -1 :=
  getLastAccessTimeFromInfo_normalises_nanoseconds
    (Linux.sampleFile { Sec := 100, Nsec := -1 })
    (Linux.sampleStat { Sec := 100, Nsec := -1 })
    (Darwin.sampleFile { Sec := 100, Nsec := -1 })
    (Darwin.sampleStat { Sec := 100, Nsec := -1 })
    100 (-1) rfl rfl rfl rfl (by decide) (by decide)

/-! ## Equivalence of the builds, input dependence, and the zero value -/

/-- C6 (cross-platform equivalence): for every pair `(S, N)`, the linux build on a block
with `Atim = (S, N)` and the darwin build on a block with `Atimespec = (S, N)` return the
same time, and on blobs that are not a `*syscall.Stat_t` both return the same zero
value. -/
theorem getLastAccessTimeFromInfo_cross_platform
    (iL : FileInfo Linux.Stat_t) (stL : Linux.Stat_t)
    (iD : FileInfo Darwin.Stat_t) (stD : Darwin.Stat_t) (S N : Int)
    (uL : FileInfo Linux.Stat_t) (uD : FileInfo Darwin.Stat_t)
    (hL : iL.Sys = SysValue.statPtr (some stL)) (hLa : stL.Atim = { Sec := S, Nsec := N })
    (hD : iD.Sys = SysValue.statPtr (some stD))
    (hDa : stD.Atimespec = { Sec := S, Nsec := N })
    (huL : ∀ p, uL.Sys ≠ SysValue.statPtr p) (huD : ∀ p, uD.Sys ≠ SysValue.statPtr p) :
    Linux.getLastAccessTimeFromInfo iL = Darwin.getLastAccessTimeFromInfo iD ∧
    Linux.getLastAccessTimeFromInfo iL = Except.ok (time.Unix S N) ∧
    Linux.getLastAccessTimeFromInfo uL = Darwin.getLastAccessTimeFromInfo uD ∧
    Linux.getLastAccessTimeFromInfo uL = Except.ok time.zeroTime := by
  have h1 : Linux.getLastAccessTimeFromInfo iL = Except.ok (time.Unix S N) := by
    rw [linux_get_of_stat iL stL hL, hLa]
  have h2 : Darwin.getLastAccessTimeFromInfo iD = Except.ok (time.Unix S N) := by
    rw [darwin_get_of_stat iD stD hD, hDa]
  refine ⟨?_, h1, ?_, linux_get_of_not_stat uL huL⟩
  · rw [h1, h2]
  · rw [linux_get_of_not_stat uL huL, darwin_get_of_not_stat uD huD]

theorem getLastAccessTimeFromInfo_cross_platform_witness :
    Linux.getLastAccessTimeFromInfo (Linux.sampleFile { Sec := -5, Nsec := 3000000001 })
      = Darwin.getLastAccessTimeFromInfo
          (otherInfo (SysValue.statPtr
            (some (Darwin.otherStat { Sec := -5, Nsec := 3000000001 })))) ∧
    Linux.getLastAccessTimeFromInfo (Linux.sampleFile { Sec := -5, Nsec := 3000000001 })
      = Except.ok (time.Unix (-5) 3000000001) ∧
    Linux.getLastAccessTimeFromInfo (sampleInfo (SysValue.other "*syscall.Win32FileAttributeData"))
      = Darwin.getLastAccessTimeFromInfo (otherInfo SysValue.nilInterface) ∧
    Linux.getLastAccessTimeFromInfo (sampleInfo (SysValue.other "*syscall.Win32FileAttributeData"))
      = Except.ok time.zeroTime :=
  getLastAccessTimeFromInfo_cross_platform
    (Linux.sampleFile { Sec := -5, Nsec := 3000000001 })
    (Linux.sampleStat { Sec := -5, Nsec := 3000000001 })
    (otherInfo (SysValue.statPtr (some (Darwin.otherStat { Sec := -5, Nsec := 3000000001 }))))
    (Darwin.otherStat { Sec := -5, Nsec := 3000000001 })
    (-5) 3000000001
    (sampleInfo (SysValue.other "*syscall.Win32FileAttributeData"))
    (otherInfo SysValue.nilInterface)
    rfl rfl rfl rfl (by intro p h; cases h) (by intro p h; cases h)

theorem linux_get_eq_of_accessView (a b : FileInfo Linux.Stat_t)
    (h : Linux.accessView a = Linux.accessView b) :
    Linux.getLastAccessTimeFromInfo a = Linux.getLastAccessTimeFromInfo b := by
  unfold Linux.accessView at h
  unfold Linux.getLastAccessTimeFromInfo
  cases ha : a.Sys with
  | statPtr p =>
    cases hb : b.Sys with
    | statPtr q =>
      rw [ha, hb] at h
      cases p with
      | none =>
        cases q with
        | none => rfl
        | some y => simp at h
      | some x =>
        cases q with
        | none => simp at h
        | some y =>
          have hxy : x.Atim = y.Atim := by simpa using h
          simp only [SysValue.assertStatPtr, deref, Bool.not_true, Bool.false_eq_true, if_false]
          show (Except.ok (time.Unix x.Atim.Sec x.Atim.Nsec) : Except Panic time.Time)
            = Except.ok (time.Unix y.Atim.Sec y.Atim.Nsec)
          rw [hxy]
    | nilInterface => rw [ha, hb] at h; simp at h
    | other n => rw [ha, hb] at h; simp at h
  | nilInterface =>
    cases hb : b.Sys with
    | statPtr q => rw [ha, hb] at h; simp at h
    | nilInterface => rfl
    | other n => rfl
  | other m =>
    cases hb : b.Sys with
    | statPtr q => rw [ha, hb] at h; simp at h
    | nilInterface => rfl
    | other n => rfl

theorem darwin_get_eq_of_accessView (a b : FileInfo Darwin.Stat_t)
    (h : Darwin.accessView a = Darwin.accessView b) :
    Darwin.getLastAccessTimeFromInfo a = Darwin.getLastAccessTimeFromInfo b := by
  unfold Darwin.accessView at h
  unfold Darwin.getLastAccessTimeFromInfo
  cases ha : a.Sys with
  | statPtr p =>
    cases hb : b.Sys with
    | statPtr q =>
      rw [ha, hb] at h
      cases p with
      | none =>
        cases q with
        | none => rfl
        | some y => simp at h
      | some x =>
        cases q with
        | none => simp at h
        | some y =>
          have hxy : x.Atimespec = y.Atimespec := by simpa using h
          simp only [SysValue.assertStatPtr, deref, Bool.not_true, Bool.false_eq_true, if_false]
          show (Except.ok (time.Unix x.Atimespec.Sec x.Atimespec.Nsec) :
              Except Panic time.Time)
            = Except.ok (time.Unix y.Atimespec.Sec y.Atimespec.Nsec)
          rw [hxy]
    | nilInterface => rw [ha, hb] at h; simp at h
    | other n => rw [ha, hb] at h; simp at h
  | nilInterface =>
    cases hb : b.Sys with
    | statPtr q => rw [ha, hb] at h; simp at h
    | nilInterface => rfl
    | other n => rfl
  | other m =>
    cases hb : b.Sys with
    | statPtr q => rw [ha, hb] at h; simp at h
    | nilInterface => rfl
    | other n => rfl

/-- C7 (determinism and input dependence): in each build, two file descriptions that agree
on whether the blob is a `*syscall.Stat_t` and on the access-time pair behind it give the
same outcome, whatever their name, size, mode, modification time and other stat fields;
equal inputs in particular give equal outcomes. -/
theorem getLastAccessTimeFromInfo_depends_only_on_access_time
    (a b : FileInfo Linux.Stat_t) (c d : FileInfo Darwin.Stat_t)
    (hL : Linux.accessView a = Linux.accessView b)
    (hD : Darwin.accessView c = Darwin.accessView d) :
    Linux.getLastAccessTimeFromInfo a = Linux.getLastAccessTimeFromInfo b ∧
    Darwin.getLastAccessTimeFromInfo c = Darwin.getLastAccessTimeFromInfo d ∧
    (∀ x : FileInfo Linux.Stat_t, x = a →
      Linux.getLastAccessTimeFromInfo x = Linux.getLastAccessTimeFromInfo a) ∧
    (∀ y : FileInfo Darwin.Stat_t, y = c →
      Darwin.getLastAccessTimeFromInfo y = Darwin.getLastAccessTimeFromInfo c) :=
  ⟨linux_get_eq_of_accessView a b hL, darwin_get_eq_of_accessView c d hD,
   fun _ hx => congrArg Linux.getLastAccessTimeFromInfo hx,
   fun _ hy => congrArg Darwin.getLastAccessTimeFromInfo hy⟩

theorem getLastAccessTimeFromInfo_depends_only_on_access_time_witness :
    Linux.getLastAccessTimeFromInfo (Linux.sampleFile { Sec := 1700000000, Nsec := 42 })
      = Linux.getLastAccessTimeFromInfo
          (otherInfo (SysValue.statPtr
            (some (Linux.otherStat { Sec := 1700000000, Nsec := 42 })))) ∧
    Darwin.getLastAccessTimeFromInfo (sampleInfo (SysValue.other "*tar.Header"))
      = Darwin.getLastAccessTimeFromInfo (otherInfo SysValue.nilInterface) :=
  have h := getLastAccessTimeFromInfo_depends_only_on_access_time
    (Linux.sampleFile { Sec := 1700000000, Nsec := 42 })
    (otherInfo (SysValue.statPtr (some (Linux.otherStat { Sec := 1700000000, Nsec := 42 }))))
    (sampleInfo (SysValue.other "*tar.Header"))
    (otherInfo SysValue.nilInterface)
    rfl rfl
  ⟨h.1, h.2.1⟩

/-- C9 (the zero value is distinguishable): when the blob is a non-nil `*syscall.Stat_t`
whose access time is `(S, N)` with `S` a non-negative `int64` (up to the maximum, where
the internal second count wraps) and `0 ≤ N < 1_000_000_000`, the time returned by both
builds is not `time.Time{}` and its `IsZero` is false. -/
theorem getLastAccessTimeFromInfo_not_zero
    (iL : FileInfo Linux.Stat_t) (stL : Linux.Stat_t)
    (iD : FileInfo Darwin.Stat_t) (stD : Darwin.Stat_t) (S N : Int)
    (hL : iL.Sys = SysValue.statPtr (some stL)) (hLa : stL.Atim = { Sec := S, Nsec := N })
    (hD : iD.Sys = SysValue.statPtr (some stD))
    (hDa : stD.Atimespec = { Sec := S, Nsec := N })
    (hS0 : 0 ≤ S) (hS : InInt64 S) (hN0 : 0 ≤ N) (hN : N < 1000000000) :
    ∃ t : time.Time,
      Linux.getLastAccessTimeFromInfo iL = Except.ok t ∧
      Darwin.getLastAccessTimeFromInfo iD = Except.ok t ∧
      t.IsZero = false ∧ t ≠ time.zeroTime := by
  have hNi : InInt64 N := by unfold InInt64; omega
  have hnf := Unix_normal_form S N hNi
  have hq : N / 1000000000 = 0 := by omega
  have hsec : (time.Unix S N).sec ≠ 0 := by
    rw [hnf, sec_of_small_wall _ _ _ (by omega), hq]
    unfold InInt64 at hS
    unfold wrapInt64
    omega
  refine ⟨time.Unix S N, ?_, ?_, ?_, ?_⟩
  · rw [linux_get_of_stat iL stL hL, hLa]
  · rw [darwin_get_of_stat iD stD hD, hDa]
  · unfold time.Time.IsZero
    simp [hsec]
  · intro h
    apply hsec
    rw [h]
    decide

theorem getLastAccessTimeFromInfo_not_zero_witness :
    ∃ t : time.Time,
      Linux.getLastAccessTimeFromInfo
        (Linux.sampleFile { Sec := 9223372036854775807, Nsec := 0 }) = Except.ok t ∧
      Darwin.getLastAccessTimeFromInfo
        (Darwin.sampleFile { Sec := 9223372036854775807, Nsec := 0 }) = Except.ok t ∧
      t.IsZero = false ∧ t ≠ time.zeroTime :=
  getLastAccessTimeFromInfo_not_zero
    (Linux.sampleFile { Sec := 9223372036854775807, Nsec := 0 })
    (Linux.sampleStat { Sec := 9223372036854775807, Nsec := 0 })
    (Darwin.sampleFile { Sec := 9223372036854775807, Nsec := 0 })
    (Darwin.sampleStat { Sec := 9223372036854775807, Nsec := 0 })
    9223372036854775807 0 rfl rfl rfl rfl (by decide) (by decide) (by decide) (by decide)

end Mole
